import Mathlib

/-!
Verification of the CrewInsight market-analysis service (shallow embedding).

The Python modules `models.py`, `storage.py`, `trend_analyzer.py`,
`summarizer.py`, `data_collectors.py` and `main.py` are embedded as Lean
definitions below.  Conventions used throughout:

* Python `float` values (confidences, percentages, processing times) are
  modelled as `ℚ`; `datetime` values are modelled as `ℚ`-free natural
  numbers counting hours (the only datetime arithmetic in the source is
  `created_at + timedelta(hours=ttl_hours)` and comparisons).
* Python dicts holding heterogeneous JSON-ish data (`processed_data`,
  `raw_data`) are association lists over a small value type `PyVal`;
  `dict.get(k, d)` with a typed use site is modelled by typed getters that
  fall back to the default when the key is absent or holds a value of a
  different type (inputs where Python itself would raise `TypeError`).
* External I/O (the uuid generator, wall-clock reads, HTTP collectors and
  the OpenAI call) is modelled by passing the outcome of the effect as an
  explicit argument.
* `float`-to-string formatting (`f"{x:.2f}"` etc.) is modelled by a
  fixed-point decimal renderer; claims never depend on its exact output.
-/

/-! ## Dynamic values stored in the data dictionaries (`models.py` Dict[str, Any]) -/

/-- A Python value as it occurs inside `processed_data` / `raw_data`
dictionaries of `MarketData`: a string, a number, or a list of strings. -/
inductive PyVal where
  | str : String → PyVal
  | num : ℚ → PyVal
  | strList : List String → PyVal
deriving DecidableEq, Repr

/-- A Python `Dict[str, Any]` as an association list. -/
abbrev PyDict := List (String × PyVal)

/-- `d.get(k)` / `d[k]`: first binding of `k`. -/
def pyLookup (d : PyDict) (k : String) : Option PyVal :=
  (d.find? (fun p => p.1 == k)).map (fun p => p.2)

/-- `k in d`. -/
def pyContainsKey (d : PyDict) (k : String) : Bool :=
  d.any (fun p => p.1 == k)

/-- `d.get(k, dflt)` at a numeric use site. -/
def pyGetNum (d : PyDict) (k : String) (dflt : ℚ) : ℚ :=
  match pyLookup d k with
  | some (.num q) => q
  | _ => dflt

/-- `d.get(k, dflt)` at a string use site. -/
def pyGetStr (d : PyDict) (k : String) (dflt : String) : String :=
  match pyLookup d k with
  | some (.str s) => s
  | _ => dflt

/-- `d.get(k, dflt)` at a list-of-strings use site. -/
def pyGetStrList (d : PyDict) (k : String) (dflt : List String) : List String :=
  match pyLookup d k with
  | some (.strList l) => l
  | _ => dflt

/-- Python truthiness of a `PyVal` (`if pe_ratio:`). -/
def pyTruthy : PyVal → Bool
  | .str s => !(s == "")
  | .num q => !(q == 0)
  | .strList l => !l.isEmpty

/-! ## String helpers modelling Python string builtins -/

/-- Worker for Python `str.split()`: `acc` holds the current word,
reversed. -/
def splitWsAux : List Char → List Char → List (List Char)
  | [], acc => if acc.isEmpty then [] else [acc.reverse]
  | c :: cs, acc =>
    if c.isWhitespace then
      if acc.isEmpty then splitWsAux cs [] else acc.reverse :: splitWsAux cs []
    else splitWsAux cs (c :: acc)

/-- Python `str.split()` (no argument): split on runs of whitespace,
dropping empty pieces; stated on character lists. -/
def splitWs (cs : List Char) : List (List Char) := splitWsAux cs []

/-- `summary.split()` on a `String`. -/
def pyWords (s : String) : List (List Char) := splitWs s.toList

/-- Python `" ".join(words)` on character lists. -/
def joinWords : List (List Char) → List Char
  | [] => []
  | [w] => w
  | w :: ws => w ++ ' ' :: joinWords ws

/-- Python `needle in hay` on character lists (substring containment). -/
def charsContains (needle : List Char) : List Char → Bool
  | [] => needle.isEmpty
  | c :: cs => needle.isPrefixOf (c :: cs) || charsContains needle cs

/-- Python `needle in hay` for strings. -/
def pyIn (needle hay : String) : Bool :=
  charsContains needle.toList hay.toList

/-- One step of Python `str.title()`: the Bool records whether the previous
character was alphabetic. -/
def pyTitleAux : Bool → List Char → List Char
  | _, [] => []
  | prevAlpha, c :: cs =>
    (if c.isAlpha then (if prevAlpha then c.toLower else c.toUpper) else c) ::
      pyTitleAux c.isAlpha cs

/-- Python `market.title()`. -/
def pyTitle (s : String) : String := String.mk (pyTitleAux false s.toList)

/-- Python `market.lower()`. -/
def pyLower (s : String) : String := String.mk (s.toList.map Char.toLower)

/-- Fixed-point decimal rendering with `digits` fractional digits; models
Python `f"{x:.2f}"` style formatting of a float (rounding mode
approximated by round-half-up). -/
def fmtFixed (digits : Nat) (q : ℚ) : String :=
  let scale : ℚ := (10 : ℚ) ^ digits
  let c : ℤ := round (q * scale)
  let sign := if c < 0 then "-" else ""
  let a := c.natAbs
  let scaleN : ℕ := 10 ^ digits
  let fpStr := toString (a % scaleN)
  let pad := String.mk (List.replicate (digits - fpStr.length) '0')
  sign ++ toString (a / scaleN) ++ "." ++ pad ++ fpStr

/-- `f"{x:.2f}"`. -/
def fmt2 (q : ℚ) : String := fmtFixed 2 q

/-- `f"{x:.3f}"`. -/
def fmt3 (q : ℚ) : String := fmtFixed 3 q

/-- Rendering of a number inside an f-string (`f"{news_volume}"`); integers
print without a fractional part. -/
def numStr (q : ℚ) : String :=
  if q.den == 1 then toString q.num else fmt2 q

/-- Rendering of an arbitrary `PyVal` inside an f-string. -/
def pyValStr : PyVal → String
  | .str s => s
  | .num q => numStr q
  | .strList l => "[" ++ String.intercalate ", " l ++ "]"

/-- `d.get(k, dflt)` rendered into an f-string, default when absent. -/
def pyGetShow (d : PyDict) (k : String) (dflt : String) : String :=
  match pyLookup d k with
  | some v => pyValStr v
  | none => dflt

/-- Python `set(xs)` iterated into a list; hash iteration order is modelled
as first-occurrence order (deterministic in the inputs either way). -/
def pySetList (l : List String) : List String :=
  l.foldl (fun acc s => if s ∈ acc then acc else acc ++ [s]) []

/-! ## `models.py` -/

/-- `MarketRegion` enum. -/
inductive MarketRegion where
  | US | EU | ASIA | GLOBAL
deriving DecidableEq, Repr

/-- `.value` of a `MarketRegion`. -/
def MarketRegion.value : MarketRegion → String
  | .US => "US"
  | .EU => "EU"
  | .ASIA => "ASIA"
  | .GLOBAL => "GLOBAL"

/-- `TimeFrame` enum. -/
inductive TimeFrame where
  | DAILY | WEEKLY | MONTHLY | QUARTERLY | YEARLY
deriving DecidableEq, Repr

/-- `.value` of a `TimeFrame`. -/
def TimeFrame.value : TimeFrame → String
  | .DAILY => "1d"
  | .WEEKLY => "1w"
  | .MONTHLY => "1m"
  | .QUARTERLY => "3m"
  | .YEARLY => "1y"

/-- `AnalysisRequest` model. -/
structure AnalysisRequest where
  market : String
  region : MarketRegion
  timeframe : TimeFrame
  api_key : String
deriving DecidableEq, Repr

/-- `MarketData` model; the timestamp is an opaque clock value. -/
structure MarketData where
  source : String
  data_type : String
  timestamp : Nat
  raw_data : PyDict
  processed_data : PyDict
deriving DecidableEq, Repr

/-- `TrendData` model. -/
structure TrendData where
  trend_name : String
  description : String
  confidence : ℚ
  supporting_data : List String
  impact : String
deriving DecidableEq, Repr

/-- `AnalysisResult` model; `created_at`/`completed_at` are wall-clock
hours, `processing_time` is seconds as in the source. -/
structure AnalysisResult where
  id : String
  request : AnalysisRequest
  status : String
  created_at : Nat
  completed_at : Option Nat := none
  market_data : List MarketData := []
  trends : List TrendData := []
  summary : Option String := none
  processing_time : Option ℚ := none
  error_message : Option String := none
deriving DecidableEq, Repr

/-! ## `trend_analyzer.py` -/

/-- `self.min_confidence_threshold`. -/
def min_confidence_threshold : ℚ := 3/10

/-- `self.max_trends`. -/
def max_trends : Nat := 5

/-- Body of the `_analyze_price_trends` loop for one `MarketData`. -/
def priceTrendsOfData (data : MarketData) : List TrendData :=
  if data.source == "Alpha Vantage" && pyContainsKey data.processed_data "price_trend" then
    let price_data := data.processed_data
    let pct := pyGetNum price_data "price_change_percent" 0
    let volatility := pyGetNum price_data "volatility" 0
    let momentum : List TrendData :=
      if pyLookup price_data "price_trend" == some (.str "up") then
        [{ trend_name := "Positive Price Momentum",
           description := "Market showing upward price movement with " ++ fmt2 pct ++ "% change",
           confidence := min (9/10) (|pct| / 10),
           supporting_data :=
             ["Price change: " ++ fmt2 pct ++ "%",
              "Volatility: " ++ fmt2 volatility ++ "%"],
           impact := "positive" }]
      else if pyLookup price_data "price_trend" == some (.str "down") then
        [{ trend_name := "Negative Price Momentum",
           description := "Market showing downward price movement with " ++ fmt2 pct ++ "% change",
           confidence := min (9/10) (|pct| / 10),
           supporting_data :=
             ["Price change: " ++ fmt2 pct ++ "%",
              "Volatility: " ++ fmt2 volatility ++ "%"],
           impact := "negative" }]
      else []
    let volTrend : List TrendData :=
      if 20 < volatility then
        [{ trend_name := "High Market Volatility",
           description := "Market experiencing high volatility at " ++ fmt2 volatility ++ "%",
           confidence := min (8/10) (volatility / 30),
           supporting_data :=
             ["Volatility level: " ++ fmt2 volatility ++ "%",
              "Data points analyzed: " ++ numStr (pyGetNum price_data "data_points" 0)],
           impact := "neutral" }]
      else []
    momentum ++ volTrend
  else []

/-- `TrendAnalyzer._analyze_price_trends`. -/
def _analyze_price_trends (market_data : List MarketData) : List TrendData :=
  market_data.flatMap priceTrendsOfData

/-- Body of the `_analyze_sentiment_trends` loop for one `MarketData`. -/
def sentimentTrendsOfData (data : MarketData) : List TrendData :=
  if data.source == "Financial News" && pyContainsKey data.processed_data "sentiment_trend" then
    let sentiment_data := data.processed_data
    let sentiment := pyGetStr sentiment_data "sentiment_trend" "neutral"
    let avg_sentiment := pyGetNum sentiment_data "avg_sentiment" 0
    let news_volume := pyGetNum sentiment_data "news_volume" 0
    let senti : List TrendData :=
      if sentiment == "positive" && decide ((1:ℚ)/5 < avg_sentiment) then
        [{ trend_name := "Positive Market Sentiment",
           description := "Strong positive sentiment in news coverage with " ++
             numStr news_volume ++ " articles analyzed",
           confidence := min (9/10) (avg_sentiment * 2),
           supporting_data :=
             ["Average sentiment score: " ++ fmt3 avg_sentiment,
              "News volume: " ++ numStr news_volume ++ " articles",
              "Top themes: " ++ String.intercalate ", " ((pyGetStrList sentiment_data "top_themes" []).take 3)],
           impact := "positive" }]
      else if sentiment == "negative" && decide (avg_sentiment < -((1:ℚ)/5)) then
        [{ trend_name := "Negative Market Sentiment",
           description := "Negative sentiment in news coverage with " ++
             numStr news_volume ++ " articles analyzed",
           confidence := min (9/10) (|avg_sentiment| * 2),
           supporting_data :=
             ["Average sentiment score: " ++ fmt3 avg_sentiment,
              "News volume: " ++ numStr news_volume ++ " articles",
              "Top themes: " ++ String.intercalate ", " ((pyGetStrList sentiment_data "top_themes" []).take 3)],
           impact := "negative" }]
      else []
    let newsTrend : List TrendData :=
      if 50 < news_volume then
        [{ trend_name := "High News Volume",
           description := "Significant media attention with " ++ numStr news_volume ++
             " articles in the timeframe",
           confidence := min (7/10) (news_volume / 100),
           supporting_data :=
             ["Article count: " ++ numStr news_volume,
              "Sentiment trend: " ++ sentiment],
           impact := "neutral" }]
      else []
    senti ++ newsTrend
  else []

/-- `TrendAnalyzer._analyze_sentiment_trends`. -/
def _analyze_sentiment_trends (market_data : List MarketData) : List TrendData :=
  market_data.flatMap sentimentTrendsOfData

/-- Body of the `_analyze_economic_trends` loop for one `MarketData`. -/
def economicTrendsOfData (data : MarketData) : List TrendData :=
  if data.source == "Economic Indicators" then
    let economic_data := data.processed_data
    let health := pyGetStr economic_data "economic_health" "unknown"
    let healthTrend : List TrendData :=
      if health == "good" then
        [{ trend_name := "Strong Economic Fundamentals",
           description := "Economic indicators show positive fundamentals supporting market growth",
           confidence := 4/5,
           supporting_data :=
             ["Economic health: " ++ health,
              "Growth trend: " ++ pyGetStr economic_data "growth_trend" "unknown",
              "Key risks: " ++ String.intercalate ", " (pyGetStrList economic_data "key_risks" [])],
           impact := "positive" }]
      else if health == "moderate" then
        [{ trend_name := "Mixed Economic Signals",
           description := "Economic indicators show mixed signals with moderate growth prospects",
           confidence := 3/5,
           supporting_data :=
             ["Economic health: " ++ health,
              "Growth trend: " ++ pyGetStr economic_data "growth_trend" "unknown",
              "Market conditions: " ++ pyGetStr economic_data "market_conditions" "unknown"],
           impact := "neutral" }]
      else []
    let conditions := pyGetStr economic_data "market_conditions" "unknown"
    let condTrend : List TrendData :=
      if conditions == "volatile" then
        [{ trend_name := "Volatile Market Conditions",
           description := "Economic indicators suggest increased market volatility",
           confidence := 7/10,
           supporting_data :=
             ["Market conditions: " ++ conditions,
              "Inflation pressure: " ++ pyGetStr economic_data "inflation_pressure" "unknown",
              "Key risks: " ++ String.intercalate ", " (pyGetStrList economic_data "key_risks" [])],
           impact := "negative" }]
      else []
    healthTrend ++ condTrend
  else []

/-- `TrendAnalyzer._analyze_economic_trends`. -/
def _analyze_economic_trends (market_data : List MarketData) : List TrendData :=
  market_data.flatMap economicTrendsOfData

/-- `float(pe_ratio)` on a dynamic value: numbers convert directly, strings
go through a decimal parse (sign, digits, optional fractional part); a
failed conversion is the `ValueError`/`TypeError` branch. -/
def pyFloat (v : PyVal) : Option ℚ :=
  match v with
  | .num q => some q
  | .strList _ => none
  | .str s =>
    let cs := s.toList
    let (neg, digitsPart) :=
      match cs with
      | '-' :: rest => (true, rest)
      | '+' :: rest => (false, rest)
      | _ => (false, cs)
    let intPart := digitsPart.takeWhile Char.isDigit
    let rest := digitsPart.dropWhile Char.isDigit
    let readNat (l : List Char) : ℕ := l.foldl (fun acc c => acc * 10 + (c.toNat - 48)) 0
    let ok (val : ℚ) : Option ℚ := if neg then some (-val) else some val
    match rest with
    | [] => if intPart.isEmpty then none else ok (readNat intPart)
    | '.' :: fracPart =>
      if fracPart.all Char.isDigit && !(intPart.isEmpty && fracPart.isEmpty) then
        ok ((readNat intPart : ℚ) + (readNat fracPart : ℚ) / (10 : ℚ) ^ fracPart.length)
      else none
    | _ => none

/-- `TrendAnalyzer._get_market_specific_trend`. -/
def _get_market_specific_trend (market : String) (market_data : List MarketData) : TrendData :=
  let _ := market_data
  let market_lower := pyLower market
  if pyIn "tech" market_lower || pyIn "technology" market_lower then
    { trend_name := "Technology Innovation Drive",
      description := "Technology sector continues to drive innovation with strong growth potential",
      confidence := 4/5,
      supporting_data :=
        ["High R&D investment",
         "Digital transformation acceleration",
         "AI and automation adoption"],
      impact := "positive" }
  else if pyIn "finance" market_lower || pyIn "financial" market_lower then
    { trend_name := "Financial Services Evolution",
      description := "Financial services sector adapting to digital transformation and regulatory changes",
      confidence := 7/10,
      supporting_data :=
        ["Fintech disruption",
         "Regulatory compliance focus",
         "Interest rate sensitivity"],
      impact := "neutral" }
  else if pyIn "health" market_lower || pyIn "healthcare" market_lower then
    { trend_name := "Healthcare Innovation Growth",
      description := "Healthcare sector benefiting from innovation and demographic trends",
      confidence := 4/5,
      supporting_data :=
        ["Aging population",
         "Medical technology advances",
         "Regulatory approval pipeline"],
      impact := "positive" }
  else if pyIn "energy" market_lower then
    { trend_name := "Energy Transition Impact",
      description := "Energy sector navigating transition to renewable sources",
      confidence := 7/10,
      supporting_data :=
        ["Renewable energy growth",
         "Fossil fuel transition",
         "Geopolitical factors"],
      impact := "neutral" }
  else
    { trend_name := "Sector-Specific Opportunities",
      description := pyTitle market ++ " sector showing sector-specific growth opportunities",
      confidence := 3/5,
      supporting_data :=
        ["Market-specific factors",
         "Regional economic conditions",
         "Industry dynamics"],
      impact := "positive" }

/-- `TrendAnalyzer._analyze_sector_trends`. -/
def _analyze_sector_trends (market_data : List MarketData) (market : String) : List TrendData :=
  let sector_data := (market_data.find? (fun d => pyContainsKey d.processed_data "sector")).map
    (fun d => d.processed_data)
  let peTrends : List TrendData :=
    match sector_data with
    | none => []
    | some sd =>
      let sector := pyGetStr sd "sector" (pyTitle market)
      match pyLookup sd "pe_ratio" with
      | none => []
      | some pv =>
        if pyTruthy pv then
          match pyFloat pv with
          | none => []
          | some pe_value =>
            if 30 < pe_value then
              [{ trend_name := "High Valuation Sector",
                 description := sector ++ " sector showing high valuations with P/E ratio of " ++
                   numStr pe_value,
                 confidence := 7/10,
                 supporting_data :=
                   ["P/E ratio: " ++ numStr pe_value,
                    "Sector: " ++ sector,
                    "Market cap: " ++ pyGetShow sd "market_cap" "N/A"],
                 impact := "neutral" }]
            else if pe_value < 15 then
              [{ trend_name := "Undervalued Sector Opportunity",
                 description := sector ++ " sector appears undervalued with P/E ratio of " ++
                   numStr pe_value,
                 confidence := 3/5,
                 supporting_data :=
                   ["P/E ratio: " ++ numStr pe_value,
                    "Sector: " ++ sector,
                    "Market cap: " ++ pyGetShow sd "market_cap" "N/A"],
                 impact := "positive" }]
            else []
        else []
  peTrends ++ [_get_market_specific_trend market market_data]

/-- Descending-by-confidence order used by
`sorted(filtered_trends, key=lambda x: x.confidence, reverse=True)`. -/
def rDesc (a b : TrendData) : Prop := b.confidence ≤ a.confidence

instance : DecidableRel rDesc := fun a b =>
  inferInstanceAs (Decidable (b.confidence ≤ a.confidence))

instance : IsTotal TrendData rDesc :=
  ⟨fun a b => le_total b.confidence a.confidence⟩

instance : IsTrans TrendData rDesc :=
  ⟨fun _ _ _ hab hbc => le_trans hbc hab⟩

/-- The pooled `all_trends` local of `analyze_trends`. -/
def all_trends (market_data : List MarketData) (market : String) : List TrendData :=
  _analyze_price_trends market_data ++ _analyze_sentiment_trends market_data ++
    _analyze_economic_trends market_data ++ _analyze_sector_trends market_data market

/-- The `filtered_trends` local of `analyze_trends`. -/
def filtered_trends (market_data : List MarketData) (market : String) : List TrendData :=
  (all_trends market_data market).filter (fun t => decide (min_confidence_threshold ≤ t.confidence))

/-- The `sorted_trends` local of `analyze_trends`; Python's `sorted` with
`reverse=True` is a stable descending sort, modelled by insertion sort
with the non-strict descending order (equal keys keep emission order). -/
def sorted_trends (market_data : List MarketData) (market : String) : List TrendData :=
  List.insertionSort rDesc (filtered_trends market_data market)

/-- `TrendAnalyzer.analyze_trends` (the `region`/`timeframe` arguments are
only logged by the source). -/
def analyze_trends (market_data : List MarketData) (market : String)
    (region : MarketRegion) (timeframe : TimeFrame) : List TrendData :=
  let _ := region
  let _ := timeframe
  (sorted_trends market_data market).take max_trends

/-! ## `storage.py` -/

/-- The `Dict[str, AnalysisResult]` table, in Python-dict insertion order. -/
abbrev ResultsDict := List (String × AnalysisResult)

/-- `self._results.get(analysis_id)`. -/
def dictLookup (d : ResultsDict) (k : String) : Option AnalysisResult :=
  (d.find? (fun p => p.1 == k)).map (fun p => p.2)

/-- `analysis_id in self._results`. -/
def dictContains (d : ResultsDict) (k : String) : Bool :=
  d.any (fun p => p.1 == k)

/-- `self._results[analysis_id] = result`: overwrite in place when present
(Python dicts keep the original position), append otherwise. -/
def dictInsert (d : ResultsDict) (k : String) (v : AnalysisResult) : ResultsDict :=
  if dictContains d k then d.map (fun p => if p.1 == k then (k, v) else p)
  else d ++ [(k, v)]

/-- `del self._results[analysis_id]`. -/
def dictErase (d : ResultsDict) (k : String) : ResultsDict :=
  d.filter (fun p => !(p.1 == k))

/-- `InMemoryStorage` state: configuration plus the results table.  The
lock serialises operations; each call is modelled as one atomic state
transition, with the `datetime.now()` reads passed in as `now`. -/
structure InMemoryStorage where
  max_results : Nat := 1000
  ttl_hours : Nat := 24
  _results : ResultsDict := []
deriving DecidableEq, Repr

/-- `InMemoryStorage._is_expired`: `now > created_at + ttl_hours`. -/
def _is_expired (st : InMemoryStorage) (now : Nat) (result : AnalysisResult) : Bool :=
  decide (result.created_at + st.ttl_hours < now)

/-- `InMemoryStorage._cleanup_old_results`: drop every expired record. -/
def _cleanup_old_results (st : InMemoryStorage) (now : Nat) : ResultsDict :=
  st._results.filter (fun p => !_is_expired st now p.2)

/-- `InMemoryStorage.create_analysis`; the fresh `str(uuid.uuid4())` and
the `datetime.now()` read are passed in as `analysis_id` and `now`. -/
def create_analysis (st : InMemoryStorage) (request : AnalysisRequest)
    (analysis_id : String) (now : Nat) : String × InMemoryStorage :=
  let result : AnalysisResult :=
    { id := analysis_id, request := request, status := "processing", created_at := now }
  let base :=
    if st.max_results ≤ st._results.length then _cleanup_old_results st now
    else st._results
  (analysis_id, { st with _results := dictInsert base analysis_id result })

/-- `InMemoryStorage.get_analysis`: lazy expiry on read. -/
def get_analysis (st : InMemoryStorage) (analysis_id : String) (now : Nat) :
    Option AnalysisResult × InMemoryStorage :=
  match dictLookup st._results analysis_id with
  | none => (none, st)
  | some result =>
    if _is_expired st now result then
      (none, { st with _results := dictErase st._results analysis_id })
    else (some result, st)

/-- The `**updates` keyword arguments of `update_analysis`, as a typed
partial update over the fields the service ever passes. -/
structure AnalysisUpdate where
  status : Option String := none
  market_data : Option (List MarketData) := none
  trends : Option (List TrendData) := none
  summary : Option String := none
  processing_time : Option ℚ := none
  error_message : Option String := none
deriving DecidableEq, Repr

/-- The `setattr` loop of `update_analysis`: apply exactly the present
fields. -/
def applyUpdates (r : AnalysisResult) (u : AnalysisUpdate) : AnalysisResult :=
  { r with
    status := u.status.getD r.status,
    market_data := u.market_data.getD r.market_data,
    trends := u.trends.getD r.trends,
    summary := match u.summary with
      | some s => some s
      | none => r.summary,
    processing_time := match u.processing_time with
      | some q => some q
      | none => r.processing_time,
    error_message := match u.error_message with
      | some e => some e
      | none => r.error_message }

/-- The record stored after `update_analysis`: field updates, then the
`completed_at` stamp when the update sets status to `"completed"`. -/
def updatedRecord (r : AnalysisResult) (u : AnalysisUpdate) (now : Nat) : AnalysisResult :=
  let r' := applyUpdates r u
  if u.status == some "completed" then { r' with completed_at := some now } else r'

/-- `InMemoryStorage.update_analysis`: no expiry check, `False` only for
unknown ids. -/
def update_analysis (st : InMemoryStorage) (analysis_id : String)
    (u : AnalysisUpdate) (now : Nat) : Bool × InMemoryStorage :=
  if dictContains st._results analysis_id then
    let updated := st._results.map
      (fun p => if p.1 == analysis_id then (p.1, updatedRecord p.2 u now) else p)
    (true, { st with _results := updated })
  else (false, st)

/-- `InMemoryStorage.delete_analysis`: no expiry check. -/
def delete_analysis (st : InMemoryStorage) (analysis_id : String) :
    Bool × InMemoryStorage :=
  if dictContains st._results analysis_id then
    (true, { st with _results := dictErase st._results analysis_id })
  else (false, st)

/-- Descending-by-`created_at` order used by `list_analyses`. -/
def rCreatedDesc (a b : AnalysisResult) : Prop := b.created_at ≤ a.created_at

instance : DecidableRel rCreatedDesc := fun a b =>
  inferInstanceAs (Decidable (b.created_at ≤ a.created_at))

/-- `InMemoryStorage.list_analyses`: cleanup, stable sort newest first,
truncate to `limit`. -/
def list_analyses (st : InMemoryStorage) (limit : Nat) (now : Nat) :
    List AnalysisResult × InMemoryStorage :=
  let cleaned := _cleanup_old_results st now
  let sorted_results := List.insertionSort rCreatedDesc (cleaned.map (fun p => p.2))
  (sorted_results.take limit, { st with _results := cleaned })

/-! ## `data_collectors.py` -/

/-- `DataCollectorManager.collect_all_data`, given the per-collector
outcomes of `asyncio.gather(*tasks, return_exceptions=True)` in
registration order: an `Except.error` is a collector whose execution
raised (logged and discarded), an `Except.ok` is its `List MarketData`. -/
def collect_all_data (results : List (Except String (List MarketData))) : List MarketData :=
  results.foldl
    (fun all_data result =>
      match result with
      | .error _ => all_data
      | .ok l => all_data ++ l)
    []

/-! ## `summarizer.py` -/

/-- `MarketSummarizer._truncate_summary`: split on whitespace; at most 300
words pass through unchanged, otherwise keep the first 300 joined by
single spaces with `"..."` appended. -/
def _truncate_summary (summary : String) : String :=
  let words := pyWords summary
  if words.length ≤ 300 then summary
  else String.mk (joinWords (words.take 300) ++ ('.' :: '.' :: '.' :: []))

/-- `"• {trend.trend_name}: {trend.description}"`. -/
def trendLine (t : TrendData) : String :=
  "• " ++ t.trend_name ++ ": " ++ t.description

/-- The per-`MarketData` branch of the fallback "Data Insights" loop. -/
def dataInsightLine (data : MarketData) : List String :=
  if data.source == "Alpha Vantage" && pyContainsKey data.processed_data "price_trend" then
    let price_data := data.processed_data
    ["• Price movement: " ++ pyGetStr price_data "price_trend" "unknown" ++ " (" ++
      fmt2 (pyGetNum price_data "price_change_percent" 0) ++ "%)"]
  else if data.source == "Financial News" && pyContainsKey data.processed_data "sentiment_trend" then
    let sentiment_data := data.processed_data
    ["• Market sentiment: " ++ pyGetStr sentiment_data "sentiment_trend" "neutral" ++
      " based on " ++ numStr (pyGetNum sentiment_data "news_volume" 0) ++ " articles"]
  else if data.source == "Economic Indicators" then
    let economic_data := data.processed_data
    ["• Economic health: " ++ pyGetStr economic_data "economic_health" "unknown" ++
      " with " ++ pyGetStr economic_data "growth_trend" "unknown" ++ " growth trend"]
  else []

/-- All `summary_parts` lines of `_generate_fallback_summary` up to (and
excluding) the timestamp footer; none of them mention the clock. -/
def fallbackBodyLines (market_data : List MarketData) (trends : List TrendData)
    (market : String) (region : MarketRegion) (timeframe : TimeFrame) : List String :=
  let keyFindings : List String :=
    if trends.isEmpty then [] else
      let positive_trends := trends.filter (fun t => t.impact == "positive")
      let negative_trends := trends.filter (fun t => t.impact == "negative")
      let neutral_trends := trends.filter (fun t => t.impact == "neutral")
      (if positive_trends.isEmpty then [] else
        "📈 Positive Trends:" :: (positive_trends.take 2).map trendLine) ++
      (if negative_trends.isEmpty then [] else
        "📉 Areas of Concern:" :: (negative_trends.take 2).map trendLine) ++
      (if neutral_trends.isEmpty then [] else
        "➡️ Neutral Observations:" :: (neutral_trends.take 1).map trendLine)
  let recommendations : List String :=
    if trends.isEmpty then [] else
      (if (trends.filter (fun t => decide ((7:ℚ)/10 < t.confidence))).isEmpty then []
        else ["• Monitor high-confidence trends closely for strategic planning"]) ++
      (if (trends.filter (fun t => t.impact == "positive")).isEmpty then []
        else ["• Consider capitalizing on positive market momentum"]) ++
      (if (trends.filter (fun t => t.impact == "negative")).isEmpty then []
        else ["• Develop risk mitigation strategies for identified concerns"])
  ["Market Analysis Summary: " ++ pyTitle market ++ " Sector",
   "Region: " ++ region.value ++ " | Timeframe: " ++ timeframe.value,
   "",
   "Key Findings:"] ++ keyFindings ++
  ["", "Data Insights:"] ++ market_data.flatMap dataInsightLine ++
  ["", "Recommendations:"] ++ recommendations ++
  ["• Continue monitoring market conditions for emerging opportunities", ""]

/-- The full `summary_parts` list of `_generate_fallback_summary`; `ts`
is the `datetime.now().strftime('%Y-%m-%d %H:%M:%S')` read. -/
def fallbackLines (market_data : List MarketData) (trends : List TrendData)
    (market : String) (region : MarketRegion) (timeframe : TimeFrame) (ts : String) :
    List String :=
  fallbackBodyLines market_data trends market region timeframe ++
    ["Analysis completed on " ++ ts,
     "Data sources: " ++ String.intercalate ", " (pySetList (market_data.map (fun d => d.source)))]

/-- Remove the second-to-last element of a list of lines; applied to the
fallback renderer's lines this removes exactly the
`"Analysis completed on ..."` timestamp footer line. -/
def dropPenultimate (l : List String) : List String :=
  l.take (l.length - 2) ++ l.drop (l.length - 1)

/-- `MarketSummarizer._generate_fallback_summary`. -/
def _generate_fallback_summary (market_data : List MarketData) (trends : List TrendData)
    (market : String) (region : MarketRegion) (timeframe : TimeFrame) (ts : String) : String :=
  _truncate_summary
    (String.intercalate "\n" (fallbackLines market_data trends market region timeframe ts))

/-- `MarketSummarizer.generate_summary`; the outcome of the OpenAI call is
the `openaiResult` argument (`ok` = `response...content.strip()`, `error`
= any raised exception), and `ts` is the clock read of the fallback. -/
def generate_summary (market_data : List MarketData) (trends : List TrendData)
    (market : String) (region : MarketRegion) (timeframe : TimeFrame)
    (openaiResult : Except String String) (ts : String) : String :=
  match openaiResult with
  | .ok s => _truncate_summary s
  | .error _ => _generate_fallback_summary market_data trends market region timeframe ts

/-! ## `main.py` (`perform_analysis` orchestrator) -/

/-- The environment of one background run of `perform_analysis`: the
aggregated collection outcome, the OpenAI outcome, the `time.time()`
reads at start and at the terminal transition, the fallback timestamp
string, and the storage clock at the update calls. -/
structure PipelineEnv where
  collected : List MarketData
  openai : Except String String
  t_start : ℚ
  t_end : ℚ
  ts : String
  now : Nat
deriving Repr

/-- `perform_analysis` of `main.py`: status stays `processing`; zero data
points fail with `"No market data collected"`; zero trends fail with
`"No trends identified"`; otherwise summarize and complete; the elapsed
wall-clock time is stored on every terminal transition. -/
def perform_analysis (st : InMemoryStorage) (analysis_id : String) (market : String)
    (region : MarketRegion) (timeframe : TimeFrame) (env : PipelineEnv) : InMemoryStorage :=
  let st1 := (update_analysis st analysis_id { status := some "processing" } env.now).2
  let market_data := env.collected
  if market_data.isEmpty then
    (update_analysis st1 analysis_id
      { status := some "failed",
        error_message := some "No market data collected",
        processing_time := some (env.t_end - env.t_start) } env.now).2
  else
    let trends := analyze_trends market_data market region timeframe
    if trends.isEmpty then
      (update_analysis st1 analysis_id
        { status := some "failed",
          error_message := some "No trends identified",
          processing_time := some (env.t_end - env.t_start) } env.now).2
    else
      let summary := generate_summary market_data trends market region timeframe env.openai env.ts
      (update_analysis st1 analysis_id
        { status := some "completed",
          market_data := some market_data,
          trends := some trends,
          summary := some summary,
          processing_time := some (env.t_end - env.t_start) } env.now).2

/-! ## Concrete fixtures used to instantiate the theorems -/

/-- A concrete valid analysis request. -/
def reqSample : AnalysisRequest :=
  { market := "technology", region := .US, timeframe := .MONTHLY, api_key := "k" }

/-- A record created at hour 0 (expired once `now > ttl_hours`). -/
def recSample : AnalysisResult :=
  { id := "a", request := reqSample, status := "completed", created_at := 0 }

/-- A store holding only `recSample`, with the default 24-hour TTL. -/
def stSample : InMemoryStorage :=
  { max_results := 1000, ttl_hours := 24, _results := [("a", recSample)] }

/-- A store at capacity (`max_results = 2`) with two fresh records. -/
def stFull : InMemoryStorage :=
  { max_results := 2, ttl_hours := 24,
    _results := [("a", recSample), ("b", { recSample with id := "b" })] }

/-- A `"Financial News"` data point whose `news_volume` is 75 and whose
sentiment is neutral, so only the news-volume rule fires. -/
def newsData75 : MarketData :=
  { source := "Financial News", data_type := "news", timestamp := 0, raw_data := [],
    processed_data :=
      [("sentiment_trend", .str "neutral"),
       ("avg_sentiment", .num 0),
       ("news_volume", .num 75)] }

/-- Like `newsData75` but with `news_volume` 60 (confidence 3/5). -/
def newsData60 : MarketData :=
  { source := "Financial News", data_type := "news", timestamp := 0, raw_data := [],
    processed_data :=
      [("sentiment_trend", .str "neutral"),
       ("avg_sentiment", .num 0),
       ("news_volume", .num 60)] }

/-- The `"High News Volume"` trend emitted for `newsData60`. -/
def newsTrend60 : TrendData :=
  (sentimentTrendsOfData newsData60).headD (_get_market_specific_trend "retail" [])

/-- The `"High News Volume"` trend emitted for `newsData75`. -/
def newsTrend75 : TrendData :=
  (sentimentTrendsOfData newsData75).headD (_get_market_specific_trend "retail" [])

/-! ## Dictionary lemmas for the store -/

/-- Replacing the value at `k` in place makes `k` look up the new value
(when `k` is present) and leaves absent keys absent. -/
theorem dictLookup_map_replace (d : ResultsDict) (k : String) (v : AnalysisResult) :
    dictLookup (d.map (fun p => if p.1 == k then (k, v) else p)) k =
      if dictContains d k then some v else none := by
  induction d with
  | nil => rfl
  | cons p t ih =>
    by_cases h : p.1 = k
    · simp [dictLookup, dictContains, List.find?, h]
    · have hb : (p.1 == k) = false := by simp [h]
      simp only [List.map_cons, hb, if_false, Bool.false_eq_true]
      simp only [dictLookup, dictContains, List.find?_cons, List.any_cons, hb] at ih ⊢
      simpa using ih

/-- Appending a fresh binding makes it visible to lookup. -/
theorem dictLookup_append_fresh (d : ResultsDict) (k : String) (v : AnalysisResult)
    (h : dictContains d k = false) :
    dictLookup (d ++ [(k, v)]) k = some v := by
  induction d with
  | nil => simp [dictLookup, List.find?]
  | cons p t ih =>
    simp only [dictContains, List.any_cons, Bool.or_eq_false_iff] at h
    simp only [dictLookup, List.cons_append, List.find?_cons, h.1]
    exact ih h.2

/-- `dictInsert` always makes `k` look up `v`. -/
theorem dictLookup_dictInsert_self (d : ResultsDict) (k : String) (v : AnalysisResult) :
    dictLookup (dictInsert d k v) k = some v := by
  unfold dictInsert
  by_cases h : dictContains d k
  · rw [if_pos h, dictLookup_map_replace, if_pos h]
  · rw [if_neg h]
    exact dictLookup_append_fresh d k v (by simpa using h)

/-- A successful lookup implies key membership. -/
theorem dictContains_of_lookup {d : ResultsDict} {k : String} {r : AnalysisResult}
    (h : dictLookup d k = some r) : dictContains d k = true := by
  induction d with
  | nil => simp [dictLookup] at h
  | cons p t ih =>
    by_cases hp : p.1 = k
    · simp [dictContains, hp]
    · have hb : (p.1 == k) = false := by simp [hp]
      simp only [dictLookup, List.find?_cons, hb] at h
      simp only [dictContains, List.any_cons, hb, Bool.false_or]
      exact ih h

/-- Lookup through the `update_analysis` field-rewriting map. -/
theorem dictLookup_map_updated (d : ResultsDict) (k : String) (u : AnalysisUpdate)
    (now : Nat) :
    dictLookup (d.map (fun p => if p.1 == k then (p.1, updatedRecord p.2 u now) else p)) k =
      (dictLookup d k).map (fun r => updatedRecord r u now) := by
  induction d with
  | nil => rfl
  | cons p t ih =>
    by_cases h : p.1 = k
    · simp [dictLookup, List.find?, h]
    · have hb : (p.1 == k) = false := by simp [h]
      simp only [List.map_cons, hb, if_false, Bool.false_eq_true]
      simp only [dictLookup, List.find?_cons, hb] at ih ⊢
      simpa using ih

/-- The result of a successful `update_analysis` at the updated id. -/
theorem update_analysis_lookup (st : InMemoryStorage) (k : String) (u : AnalysisUpdate)
    (now : Nat) {r : AnalysisResult} (h : dictLookup st._results k = some r) :
    (update_analysis st k u now).1 = true ∧
      dictLookup (update_analysis st k u now).2._results k = some (updatedRecord r u now) ∧
      (update_analysis st k u now).2.ttl_hours = st.ttl_hours ∧
      (update_analysis st k u now).2.max_results = st.max_results := by
  have hc := dictContains_of_lookup h
  unfold update_analysis
  rw [if_pos hc]
  refine ⟨rfl, ?_, rfl, rfl⟩
  show dictLookup _ _ = _
  rw [dictLookup_map_updated, h]
  rfl

/-! ## C1: store round trip -/

/-- C1: round trip through the store — after `create_analysis` returns an
id, `update_analysis(id, status="completed", summary="X")` returns `True`
(stamping `completed_at` as part of that same update), and a subsequent
`get_analysis` performed before the record's TTL elapses returns a record
whose status is `"completed"`, whose `completed_at` is the update's clock
reading, and whose summary equals `"X"`. -/
theorem C1_round_trip (st : InMemoryStorage) (request : AnalysisRequest)
    (analysis_id : String) (t0 t1 t2 : Nat) (h2 : t2 ≤ t0 + st.ttl_hours) :
    (update_analysis (create_analysis st request analysis_id t0).2 analysis_id
        { status := some "completed", summary := some "X" } t1).1 = true ∧
      ∃ r : AnalysisResult,
        (get_analysis
            (update_analysis (create_analysis st request analysis_id t0).2 analysis_id
              { status := some "completed", summary := some "X" } t1).2
            analysis_id t2).1 = some r ∧
          r.status = "completed" ∧ r.completed_at = some t1 ∧ r.summary = some "X" := by
  have hlk : dictLookup (create_analysis st request analysis_id t0).2._results analysis_id =
      some { id := analysis_id, request := request, status := "processing", created_at := t0 } :=
    dictLookup_dictInsert_self _ _ _
  obtain ⟨hok, hlk2, httl, -⟩ :=
    update_analysis_lookup (create_analysis st request analysis_id t0).2 analysis_id
      { status := some "completed", summary := some "X" } t1 hlk
  refine ⟨hok, ?_⟩
  refine ⟨updatedRecord
    { id := analysis_id, request := request, status := "processing", created_at := t0 }
    { status := some "completed", summary := some "X" } t1, ?_, rfl, rfl, rfl⟩
  unfold get_analysis
  rw [hlk2]
  dsimp only
  have hexp : _is_expired
      (update_analysis (create_analysis st request analysis_id t0).2 analysis_id
        { status := some "completed", summary := some "X" } t1).2 t2
      (updatedRecord
        { id := analysis_id, request := request, status := "processing", created_at := t0 }
        { status := some "completed", summary := some "X" } t1) = false := by
    unfold _is_expired
    rw [httl]
    have hcreate : (create_analysis st request analysis_id t0).2.ttl_hours = st.ttl_hours := rfl
    rw [hcreate]
    simp only [decide_eq_false_iff_not, not_lt]
    show t2 ≤ t0 + st.ttl_hours
    exact h2
  rw [hexp]
  simp

/-- Witness for C1 at a concrete store, request, id and clock readings. -/
theorem C1_round_trip_witness :
    (2 : Nat) ≤ 0 + ({} : InMemoryStorage).ttl_hours ∧
      ((update_analysis (create_analysis {} reqSample "a" 0).2 "a"
          { status := some "completed", summary := some "X" } 1).1 = true ∧
        ∃ r : AnalysisResult,
          (get_analysis
              (update_analysis (create_analysis {} reqSample "a" 0).2 "a"
                { status := some "completed", summary := some "X" } 1).2
              "a" 2).1 = some r ∧
            r.status = "completed" ∧ r.completed_at = some 1 ∧ r.summary = some "X") :=
  ⟨by decide, C1_round_trip {} reqSample "a" 0 1 2 (by decide)⟩

/-! ## C2: expiry handling across the store operations -/

/-- Erasing a key removes it from the table. -/
theorem dictContains_dictErase (d : ResultsDict) (k : String) :
    dictContains (dictErase d k) k = false := by
  induction d with
  | nil => rfl
  | cons p t ih =>
    by_cases h : p.1 = k
    · simp only [dictErase, dictContains] at ih ⊢
      simp [h, ih]
    · have hb : (p.1 == k) = false := by simp [h]
      simp only [dictErase, List.filter_cons, hb, Bool.not_false, if_true]
      simp only [dictErase, dictContains, List.any_cons, hb, Bool.false_or] at ih ⊢
      exact ih

/-- Counterexample to C2 as stated: on a record whose age exceeds the TTL
but which is still physically in the table, `update_analysis` returns
`True` and `delete_analysis` returns `True` — neither operation consults
expiry, contradicting "update(id, ...) returns false, delete(id) returns
false" for expired records. -/
theorem C2_expired_update_delete_counterexample :
    _is_expired stSample 25 recSample = true ∧
      dictLookup stSample._results "a" = some recSample ∧
      (update_analysis stSample "a" {} 25).1 = true ∧
      (delete_analysis stSample "a").1 = true := by
  refine ⟨by decide, by decide, ?_, by decide⟩
  decide

/-- C2 amended: expiry is honored lazily by the read paths only — for a
record whose age exceeds `ttl_hours` at call time, `get_analysis` returns
absent (and evicts it), and `list_analyses` never returns an expired
record; but `update_analysis` and `delete_analysis` do not consult
expiry: on an expired record still in the table they return `True`. -/
theorem C2_lazy_expiry (st : InMemoryStorage) (analysis_id : String)
    (u : AnalysisUpdate) (now limit : Nat) (r : AnalysisResult)
    (hr : dictLookup st._results analysis_id = some r)
    (hexp : _is_expired st now r = true) :
    (get_analysis st analysis_id now).1 = none ∧
      dictContains (get_analysis st analysis_id now).2._results analysis_id = false ∧
      (update_analysis st analysis_id u now).1 = true ∧
      (delete_analysis st analysis_id).1 = true ∧
      ∀ x ∈ (list_analyses st limit now).1, _is_expired st now x = false := by
  have hc := dictContains_of_lookup hr
  refine ⟨?_, ?_, ?_, ?_, ?_⟩
  · unfold get_analysis
    rw [hr]
    dsimp only
    rw [hexp]
    simp
  · unfold get_analysis
    rw [hr]
    dsimp only
    rw [hexp]
    simpa using dictContains_dictErase st._results analysis_id
  · unfold update_analysis
    rw [if_pos hc]
  · unfold delete_analysis
    rw [if_pos hc]
  · intro x hx
    have hx1 : x ∈ List.insertionSort rCreatedDesc ((_cleanup_old_results st now).map
        (fun p => p.2)) := List.mem_of_mem_take hx
    have hx2 : x ∈ (_cleanup_old_results st now).map (fun p => p.2) :=
      (List.mem_insertionSort rCreatedDesc).mp hx1
    obtain ⟨p, hp, rfl⟩ := List.mem_map.mp hx2
    have := (List.mem_filter.mp hp).2
    simpa using this

/-- Witness for C2 at the concrete expired store. -/
theorem C2_lazy_expiry_witness :
    dictLookup stSample._results "a" = some recSample ∧
      _is_expired stSample 25 recSample = true ∧
      (get_analysis stSample "a" 25).1 = none ∧
      (update_analysis stSample "a" {} 25).1 = true := by
  refine ⟨by decide, by decide, ?_, ?_⟩
  · exact (C2_lazy_expiry stSample "a" {} 25 10 recSample (by decide) (by decide)).1
  · exact (C2_lazy_expiry stSample "a" {} 25 10 recSample (by decide) (by decide)).2.2.1

/-! ## C3: best-effort capacity control on create -/

/-- C3: `create_analysis` evicts only when the current record count is at
least `max_results`, and then evicts exactly the expired records; when no
stored record is expired the table after `create` is the old table with
the new record inserted (so the store may exceed `max_results`), while
`list_analyses` still returns at most `limit` records. -/
theorem C3_create_capacity (st : InMemoryStorage) (request : AnalysisRequest)
    (analysis_id : String) (now limit : Nat) :
    (st._results.length < st.max_results →
      (create_analysis st request analysis_id now).2._results =
        dictInsert st._results analysis_id
          { id := analysis_id, request := request, status := "processing", created_at := now }) ∧
      (st.max_results ≤ st._results.length →
        (create_analysis st request analysis_id now).2._results =
          dictInsert (st._results.filter (fun p => !_is_expired st now p.2)) analysis_id
            { id := analysis_id, request := request, status := "processing", created_at := now }) ∧
      ((∀ p ∈ st._results, _is_expired st now p.2 = false) →
        (create_analysis st request analysis_id now).2._results =
          dictInsert st._results analysis_id
            { id := analysis_id, request := request, status := "processing", created_at := now }) ∧
      (list_analyses st limit now).1.length ≤ limit := by
  have hfilter : (∀ p ∈ st._results, _is_expired st now p.2 = false) →
      st._results.filter (fun p => !_is_expired st now p.2) = st._results := by
    intro h
    exact List.filter_eq_self.mpr (fun p hp => by rw [h p hp]; rfl)
  refine ⟨?_, ?_, ?_, ?_⟩
  · intro h
    unfold create_analysis
    rw [if_neg (not_le.mpr h)]
  · intro h
    unfold create_analysis
    rw [if_pos h]
    rfl
  · intro h
    by_cases hc : st.max_results ≤ st._results.length
    · unfold create_analysis
      rw [if_pos hc]
      show dictInsert (_cleanup_old_results st now) _ _ = _
      unfold _cleanup_old_results
      rw [hfilter h]
    · unfold create_analysis
      rw [if_neg hc]
  · exact List.length_take_le limit _

/-- Witness for C3: a store already at capacity whose records are all
fresh — `create_analysis` evicts nothing and the table exceeds
`max_results`. -/
theorem C3_create_capacity_witness :
    (∀ p ∈ stFull._results, _is_expired stFull 1 p.2 = false) ∧
      (create_analysis stFull reqSample "c" 1).2._results =
        dictInsert stFull._results "c"
          { id := "c", request := reqSample, status := "processing", created_at := 1 } ∧
      stFull.max_results < (create_analysis stFull reqSample "c" 1).2._results.length ∧
      (list_analyses stFull 1 1).1.length ≤ 1 := by
  refine ⟨by decide, ?_, by decide, ?_⟩
  · exact (C3_create_capacity stFull reqSample "c" 1 1).2.2.1 (by decide)
  · exact (C3_create_capacity stFull reqSample "c" 1 1).2.2.2

/-! ## C4: collection fan-out aggregation -/

/-- The fold inside `collect_all_data`, generalized over the accumulator. -/
theorem collect_all_data_foldl (results : List (Except String (List MarketData)))
    (acc : List MarketData) :
    results.foldl
        (fun all_data result =>
          match result with
          | .error _ => all_data
          | .ok l => all_data ++ l) acc =
      acc ++ (results.filterMap
        (fun r => match r with | .ok l => some l | .error _ => none)).flatten := by
  induction results generalizing acc with
  | nil => simp
  | cons r t ih =>
    cases r with
    | error e => simp [ih]
    | ok l => simp [ih]

/-- C4: the fan-out aggregation equals the concatenation, in registration
order, of the successful collectors' output lists (each preserving its
internal order), failed collectors contributing nothing; if every
collector fails the result is empty. -/
theorem C4_fan_out_aggregation :
    (∀ results : List (Except String (List MarketData)),
        collect_all_data results =
          (results.filterMap
            (fun r => match r with | .ok l => some l | .error _ => none)).flatten) ∧
      ∀ es : List String, collect_all_data (es.map Except.error) = [] := by
  have hmain : ∀ results : List (Except String (List MarketData)),
      collect_all_data results =
        (results.filterMap
          (fun r => match r with | .ok l => some l | .error _ => none)).flatten := by
    intro results
    unfold collect_all_data
    simpa using collect_all_data_foldl results []
  refine ⟨hmain, fun es => ?_⟩
  rw [hmain]
  induction es with
  | nil => rfl
  | cons e t ih => simp [ih]

/-! ## C5: orchestrator failure path on empty collection -/

/-- C5: when the collection stage yields zero data points,
`perform_analysis` stores status `"failed"` with error message
`"No market data collected"` and sets `processing_time` to the elapsed
wall-clock time; moreover `processing_time` is set to that elapsed time
on every terminal transition, success or failure. -/
theorem C5_no_data_failure (st : InMemoryStorage) (analysis_id market : String)
    (region : MarketRegion) (timeframe : TimeFrame) (env : PipelineEnv)
    (r0 : AnalysisResult) (hr : dictLookup st._results analysis_id = some r0) :
    (env.collected = [] →
      ∃ r : AnalysisResult,
        dictLookup (perform_analysis st analysis_id market region timeframe env)._results
            analysis_id = some r ∧
          r.status = "failed" ∧ r.error_message = some "No market data collected" ∧
          r.processing_time = some (env.t_end - env.t_start)) ∧
      ∃ r : AnalysisResult,
        dictLookup (perform_analysis st analysis_id market region timeframe env)._results
            analysis_id = some r ∧
          r.processing_time = some (env.t_end - env.t_start) := by
  have h1 := (update_analysis_lookup st analysis_id { status := some "processing" }
    env.now hr).2.1
  unfold perform_analysis
  by_cases hE : env.collected.isEmpty
  · rw [if_pos hE]
    refine ⟨fun _ => ?_, ?_⟩
    · exact ⟨_, (update_analysis_lookup _ analysis_id
        { status := some "failed", error_message := some "No market data collected",
          processing_time := some (env.t_end - env.t_start) } env.now h1).2.1,
        rfl, rfl, rfl⟩
    · exact ⟨_, (update_analysis_lookup _ analysis_id
        { status := some "failed", error_message := some "No market data collected",
          processing_time := some (env.t_end - env.t_start) } env.now h1).2.1, rfl⟩
  · rw [if_neg hE]
    refine ⟨fun hc => by simp [hc] at hE, ?_⟩
    by_cases hT : (analyze_trends env.collected market region timeframe).isEmpty
    · rw [if_pos hT]
      exact ⟨_, (update_analysis_lookup _ analysis_id
        { status := some "failed", error_message := some "No trends identified",
          processing_time := some (env.t_end - env.t_start) } env.now h1).2.1, rfl⟩
    · rw [if_neg hT]
      exact ⟨_, (update_analysis_lookup _ analysis_id
        { status := some "completed", market_data := some env.collected,
          trends := some (analyze_trends env.collected market region timeframe),
          summary := some (generate_summary env.collected
            (analyze_trends env.collected market region timeframe) market region timeframe
            env.openai env.ts),
          processing_time := some (env.t_end - env.t_start) } env.now h1).2.1, rfl⟩

/-- Witness for C5 at a concrete store and an empty collection outcome. -/
theorem C5_no_data_failure_witness :
    dictLookup stSample._results "a" = some recSample ∧
      ([] : List MarketData) = [] ∧
      ∃ r : AnalysisResult,
        dictLookup (perform_analysis stSample "a" "technology" .US .MONTHLY
            { collected := [], openai := .error "down", t_start := 0, t_end := 2,
              ts := "2024-01-01 00:00:00", now := 1 })._results "a" = some r ∧
          r.status = "failed" ∧ r.error_message = some "No market data collected" ∧
          r.processing_time = some ((2 : ℚ) - 0) := by
  refine ⟨by decide, rfl, ?_⟩
  exact (C5_no_data_failure stSample "a" "technology" .US .MONTHLY
    { collected := [], openai := .error "down", t_start := 0, t_end := 2,
      ts := "2024-01-01 00:00:00", now := 1 } recSample (by decide)).1 rfl

/-! ## C6: trend ranking postcondition -/

/-- C6: the output of `analyze_trends` contains no trend with confidence
below the 0.3 threshold, is sorted by confidence descending (and when two
returned trends have strictly different confidences the larger one comes
strictly earlier, so a 0.8-confidence trend precedes a 0.5-confidence
one), has length at most 5, and the sort is stable: two
equal-confidence trends that pass the filter in emission order stay in
that relative order in the ranked list. -/
theorem C6_trend_ranking (market_data : List MarketData) (market : String)
    (region : MarketRegion) (timeframe : TimeFrame) :
    (∀ t ∈ analyze_trends market_data market region timeframe,
        min_confidence_threshold ≤ t.confidence) ∧
      (analyze_trends market_data market region timeframe).Pairwise rDesc ∧
      (analyze_trends market_data market region timeframe).length ≤ max_trends ∧
      (∀ (i j : Nat) (t1 t2 : TrendData),
        (analyze_trends market_data market region timeframe)[i]? = some t1 →
        (analyze_trends market_data market region timeframe)[j]? = some t2 →
        t2.confidence < t1.confidence → i < j) ∧
      ∀ t1 t2 : TrendData,
        [t1, t2].Sublist (filtered_trends market_data market) →
        t1.confidence = t2.confidence →
        [t1, t2].Sublist (sorted_trends market_data market) := by
  have hsorted : (sorted_trends market_data market).Pairwise rDesc :=
    List.sorted_insertionSort rDesc (filtered_trends market_data market)
  have hout : (analyze_trends market_data market region timeframe).Pairwise rDesc :=
    List.Pairwise.sublist (List.take_sublist max_trends _) hsorted
  refine ⟨?_, hout, List.length_take_le _ _, ?_, ?_⟩
  · intro t ht
    have h1 : t ∈ sorted_trends market_data market := List.mem_of_mem_take ht
    have h2 : t ∈ filtered_trends market_data market :=
      (List.mem_insertionSort rDesc).mp h1
    have h3 := (List.mem_filter.mp h2).2
    exact of_decide_eq_true h3
  · intro i j t1 t2 h1 h2 hlt
    obtain ⟨hi, hit⟩ := List.getElem?_eq_some_iff.mp h1
    obtain ⟨hj, hjt⟩ := List.getElem?_eq_some_iff.mp h2
    by_contra hij
    rcases Nat.lt_or_ge j i with hji | hge
    · have hr := (List.pairwise_iff_getElem.mp hout) j i hj hi hji
      rw [hit, hjt] at hr
      exact absurd hr (not_le.mpr hlt)
    · have hij' : i = j := le_antisymm hge (not_lt.mp hij)
      subst hij'
      rw [hit] at hjt
      rw [hjt] at hlt
      exact lt_irrefl _ hlt
  · intro t1 t2 hs heq
    have hpair : ([t1, t2] : List TrendData).Pairwise rDesc := by
      refine List.pairwise_cons.mpr ⟨?_, List.pairwise_singleton _ _⟩
      intro b hb
      rw [List.mem_singleton] at hb
      subst hb
      exact le_of_eq heq.symm
    exact List.sublist_insertionSort hpair hs

/-- Witness for C6: a news data point plus the subject-keyword trend; the
threshold bound is instantiated at the emitted news-volume trend, and the
stability clause at a duplicated equal-confidence pair. -/
theorem C6_trend_ranking_witness :
    newsTrend60 ∈ analyze_trends [newsData60] "technology" .US .MONTHLY ∧
      min_confidence_threshold ≤ newsTrend60.confidence ∧
      [newsTrend60, newsTrend60].Sublist (filtered_trends [newsData60, newsData60] "retail") ∧
      [newsTrend60, newsTrend60].Sublist (sorted_trends [newsData60, newsData60] "retail") := by
  refine ⟨by with_unfolding_all decide, ?_, by with_unfolding_all decide, ?_⟩
  · exact (C6_trend_ranking [newsData60] "technology" .US .MONTHLY).1 newsTrend60
      (by with_unfolding_all decide)
  · exact (C6_trend_ranking [newsData60, newsData60] "retail" .US .MONTHLY).2.2.2.2
      newsTrend60 newsTrend60 (by with_unfolding_all decide) rfl

/-! ## C7: per-rule confidence clamps -/

/-- Confidence bounds for the price-trend rules: momentum clamps at 9/10,
the volatility rule clamps at 8/10. -/
theorem priceTrendsOfData_conf (d : MarketData) :
    ∀ t ∈ priceTrendsOfData d,
      (0 ≤ t.confidence ∧ t.confidence ≤ 9/10) ∧
        (t.trend_name = "High Market Volatility" → t.confidence ≤ 8/10) := by
  intro t ht
  unfold priceTrendsOfData at ht
  split at ht
  case isFalse => simp at ht
  dsimp only at ht
  rcases List.mem_append.mp ht with h | h
  · split at h
    · rw [List.mem_singleton] at h
      subst h
      refine ⟨⟨le_min (by norm_num) (by positivity), min_le_left _ _⟩, fun hn => ?_⟩
      simp at hn
    · split at h
      · rw [List.mem_singleton] at h
        subst h
        refine ⟨⟨le_min (by norm_num) (by positivity), min_le_left _ _⟩, fun hn => ?_⟩
        simp at hn
      · simp at h
  · split at h
    case isFalse => simp at h
    case isTrue hvol =>
      rw [List.mem_singleton] at h
      subst h
      refine ⟨⟨le_min (by norm_num) (by linarith), ?_⟩, fun _ => min_le_left _ _⟩
      exact le_trans (min_le_left _ _) (by norm_num)

/-- Confidence bounds for the sentiment rules: the two sentiment rules
clamp at 9/10, the news-volume rule clamps at 7/10. -/
theorem sentimentTrendsOfData_conf (d : MarketData) :
    ∀ t ∈ sentimentTrendsOfData d,
      (0 ≤ t.confidence ∧ t.confidence ≤ 9/10) ∧
        (t.trend_name = "High News Volume" → t.confidence ≤ 7/10) := by
  intro t ht
  unfold sentimentTrendsOfData at ht
  split at ht
  case isFalse => simp at ht
  dsimp only at ht
  rcases List.mem_append.mp ht with h | h
  · split at h
    case isTrue hcond =>
      have havg : (1:ℚ)/5 < pyGetNum d.processed_data "avg_sentiment" 0 :=
        of_decide_eq_true (Bool.and_elim_right hcond)
      rw [List.mem_singleton] at h
      subst h
      refine ⟨⟨le_min (by norm_num) (by linarith), min_le_left _ _⟩, fun hn => ?_⟩
      simp at hn
    split at h
    case isTrue hcond =>
      rw [List.mem_singleton] at h
      subst h
      refine ⟨⟨le_min (by norm_num) (by positivity), min_le_left _ _⟩, fun hn => ?_⟩
      simp at hn
    case isFalse => simp at h
  · split at h
    case isFalse => simp at h
    case isTrue hvol =>
      rw [List.mem_singleton] at h
      subst h
      refine ⟨⟨le_min (by norm_num) (by linarith), ?_⟩, fun _ => min_le_left _ _⟩
      exact le_trans (min_le_left _ _) (by norm_num)

/-- Confidence bounds for the economic rules: fixed confidences, all at
most 4/5. -/
theorem economicTrendsOfData_conf (d : MarketData) :
    ∀ t ∈ economicTrendsOfData d, 0 ≤ t.confidence ∧ t.confidence ≤ 4/5 := by
  intro t ht
  unfold economicTrendsOfData at ht
  split at ht
  case isFalse => simp at ht
  dsimp only at ht
  rcases List.mem_append.mp ht with h | h
  · split at h
    · rw [List.mem_singleton] at h
      subst h
      exact ⟨by norm_num, by norm_num⟩
    split at h
    · rw [List.mem_singleton] at h
      subst h
      exact ⟨by norm_num, by norm_num⟩
    · simp at h
  · split at h
    · rw [List.mem_singleton] at h
      subst h
      exact ⟨by norm_num, by norm_num⟩
    · simp at h

/-- The subject-keyword rule always emits confidence between 3/5 and
4/5. -/
theorem market_specific_conf (market : String) (md : List MarketData) :
    0 ≤ (_get_market_specific_trend market md).confidence ∧
      (_get_market_specific_trend market md).confidence ≤ 4/5 ∧
      3/5 ≤ (_get_market_specific_trend market md).confidence := by
  unfold _get_market_specific_trend
  dsimp only
  split
  · exact ⟨by norm_num, by norm_num, by norm_num⟩
  split
  · exact ⟨by norm_num, by norm_num, by norm_num⟩
  split
  · exact ⟨by norm_num, by norm_num, by norm_num⟩
  split
  · exact ⟨by norm_num, by norm_num, by norm_num⟩
  · exact ⟨by norm_num, by norm_num, by norm_num⟩

/-- Confidence bounds for the sector battery: the valuation rules emit
7/10 / 3/5 and the subject-keyword rule at most 4/5. -/
theorem sectorTrends_conf (md : List MarketData) (market : String) :
    ∀ t ∈ _analyze_sector_trends md market, 0 ≤ t.confidence ∧ t.confidence ≤ 4/5 := by
  intro t ht
  unfold _analyze_sector_trends at ht
  dsimp only at ht
  rcases List.mem_append.mp ht with h | h
  · rcases hfind : (md.find? (fun d => pyContainsKey d.processed_data "sector")) with - | d
    · rw [hfind] at h
      simp at h
    rw [hfind] at h
    dsimp only [Option.map] at h
    rcases hpe : pyLookup d.processed_data "pe_ratio" with - | pv
    · rw [hpe] at h
      simp at h
    rw [hpe] at h
    dsimp only at h
    split at h
    case isFalse => simp at h
    rcases hfl : pyFloat pv with - | pe
    · rw [hfl] at h
      simp at h
    rw [hfl] at h
    dsimp only at h
    split at h
    · rw [List.mem_singleton] at h
      subst h
      exact ⟨by norm_num, by norm_num⟩
    split at h
    · rw [List.mem_singleton] at h
      subst h
      exact ⟨by norm_num, by norm_num⟩
    · simp at h
  · rw [List.mem_singleton] at h
    subst h
    exact ⟨(market_specific_conf market md).1, (market_specific_conf market md).2.1⟩

/-- Counterexample to C7 as stated: the news-volume rule clamps at 0.7,
not at 0.9 or 0.8 — at `news_volume = 75` it emits confidence 0.7, which
is neither the magnitude 75/100 clamped to [0, 0.9] nor clamped to
[0, 0.8]. -/
theorem C7_news_clamp_counterexample :
    (_analyze_sentiment_trends [newsData75]).map (fun t => t.confidence) = [7/10] ∧
      (7:ℚ)/10 ≠ min ((9:ℚ)/10) (75/100) ∧ (7:ℚ)/10 ≠ min ((8:ℚ)/10) (75/100) := by
  refine ⟨by with_unfolding_all decide, by with_unfolding_all decide,
    by with_unfolding_all decide⟩

/-- C7 amended: every rule emits a confidence inside its own clamp, the
ceiling being 9/10 for the momentum and sentiment rules, 8/10 for the
volatility rule and the constant-confidence rules, and 7/10 for the
news-volume rule; consequently every pooled trend has confidence in
[0, 9/10]. -/
theorem C7_rule_confidence_clamps (market_data : List MarketData) (market : String) :
    (∀ t ∈ all_trends market_data market, 0 ≤ t.confidence ∧ t.confidence ≤ 9/10) ∧
      (∀ t ∈ _analyze_price_trends market_data,
        t.trend_name = "High Market Volatility" → t.confidence ≤ 8/10) ∧
      (∀ t ∈ _analyze_sentiment_trends market_data,
        t.trend_name = "High News Volume" → t.confidence ≤ 7/10) ∧
      (∀ t ∈ _analyze_economic_trends market_data, t.confidence ≤ 4/5) ∧
      (∀ t ∈ _analyze_sector_trends market_data market, t.confidence ≤ 4/5) := by
  refine ⟨?_, ?_, ?_, ?_, ?_⟩
  · intro t ht
    rcases List.mem_append.mp ht with h | h
    · rcases List.mem_append.mp h with h2 | h2
      · rcases List.mem_append.mp h2 with h3 | h3
        · obtain ⟨d, -, hd⟩ := List.mem_flatMap.mp h3
          exact (priceTrendsOfData_conf d t hd).1
        · obtain ⟨d, -, hd⟩ := List.mem_flatMap.mp h3
          exact (sentimentTrendsOfData_conf d t hd).1
      · obtain ⟨d, -, hd⟩ := List.mem_flatMap.mp h2
        have := economicTrendsOfData_conf d t hd
        exact ⟨this.1, le_trans this.2 (by norm_num)⟩
    · have := sectorTrends_conf market_data market t h
      exact ⟨this.1, le_trans this.2 (by norm_num)⟩
  · intro t ht
    obtain ⟨d, -, hd⟩ := List.mem_flatMap.mp ht
    exact (priceTrendsOfData_conf d t hd).2
  · intro t ht
    obtain ⟨d, -, hd⟩ := List.mem_flatMap.mp ht
    exact (sentimentTrendsOfData_conf d t hd).2
  · intro t ht
    obtain ⟨d, -, hd⟩ := List.mem_flatMap.mp ht
    exact (economicTrendsOfData_conf d t hd).2
  · intro t ht
    exact (sectorTrends_conf market_data market t ht).2

/-- Witness for C7 (amended) at the concrete news data point. -/
theorem C7_rule_confidence_clamps_witness :
    newsTrend75 ∈ _analyze_sentiment_trends [newsData75] ∧
      newsTrend75.trend_name = "High News Volume" ∧
      newsTrend75.confidence ≤ 7/10 ∧
      0 ≤ newsTrend75.confidence ∧ newsTrend75.confidence ≤ 9/10 := by
  refine ⟨by with_unfolding_all decide, by with_unfolding_all decide, ?_, ?_⟩
  · exact (C7_rule_confidence_clamps [newsData75] "technology").2.2.1 newsTrend75
      (by with_unfolding_all decide) (by with_unfolding_all decide)
  · exact (C7_rule_confidence_clamps [newsData75] "technology").1 newsTrend75
      (by with_unfolding_all decide)

/-! ## C8: word-count truncation -/

/-- Equation: splitter on the empty input. -/
theorem splitWsAux_nil (acc : List Char) :
    splitWsAux [] acc = if acc.isEmpty then [] else [acc.reverse] := by
  simp only [splitWsAux]

/-- Equation: splitter on a whitespace character. -/
theorem splitWsAux_cons_ws {c : Char} (hc : c.isWhitespace = true) (cs acc : List Char) :
    splitWsAux (c :: cs) acc =
      if acc.isEmpty then splitWsAux cs [] else acc.reverse :: splitWsAux cs [] := by
  simp only [splitWsAux, hc, if_true]

/-- Equation: splitter on a non-whitespace character. -/
theorem splitWsAux_cons_nonws {c : Char} (hc : c.isWhitespace = false) (cs acc : List Char) :
    splitWsAux (c :: cs) acc = splitWsAux cs (c :: acc) := by
  simp only [splitWsAux, hc, Bool.false_eq_true, if_false]

/-- Every word produced by the splitter is nonempty and contains no
whitespace. -/
theorem splitWsAux_words_clean :
    ∀ (cs acc : List Char), (∀ c ∈ acc, c.isWhitespace = false) →
      ∀ w ∈ splitWsAux cs acc, w ≠ [] ∧ ∀ c ∈ w, c.isWhitespace = false := by
  intro cs
  induction cs with
  | nil =>
    intro acc hacc w hw
    rw [splitWsAux_nil] at hw
    split at hw
    · simp at hw
    case isFalse hne =>
      rw [List.mem_singleton] at hw
      subst hw
      refine ⟨?_, fun c hc => hacc c (List.mem_reverse.mp hc)⟩
      intro h
      exact hne (by simp [List.isEmpty_iff, List.reverse_eq_nil_iff.mp h])
  | cons c cs ih =>
    intro acc hacc w hw
    by_cases hcw : c.isWhitespace = true
    · rw [splitWsAux_cons_ws hcw] at hw
      split at hw
      · exact ih [] (by simp) w hw
      next hne =>
        rcases List.mem_cons.mp hw with h | h
        · subst h
          refine ⟨?_, fun x hx => hacc x (List.mem_reverse.mp hx)⟩
          intro h
          exact hne (by simp [List.isEmpty_iff, List.reverse_eq_nil_iff.mp h])
        · exact ih [] (by simp) w h
    · have hc : c.isWhitespace = false := Bool.eq_false_iff.mpr hcw
      rw [splitWsAux_cons_nonws hc] at hw
      refine ih (c :: acc) ?_ w hw
      intro x hx
      rcases List.mem_cons.mp hx with h | h
      · subst h
        exact hc
      · exact hacc x h

/-- Scanning a whitespace-free block just accumulates it. -/
theorem splitWsAux_word :
    ∀ (w : List Char), (∀ c ∈ w, c.isWhitespace = false) →
      ∀ (cs acc : List Char), splitWsAux (w ++ cs) acc = splitWsAux cs (w.reverse ++ acc) := by
  intro w
  induction w with
  | nil => intro _ cs acc; simp
  | cons c t ih =>
    intro hcl cs acc
    have hc : c.isWhitespace = false := hcl c (by simp)
    show splitWsAux (c :: (t ++ cs)) acc = _
    rw [splitWsAux_cons_nonws hc, ih (fun x hx => hcl x (List.mem_cons_of_mem c hx)) cs (c :: acc)]
    simp [List.append_assoc]

/-- Splitting a single nonempty whitespace-free word yields that word. -/
theorem splitWs_single (w : List Char) (hne : w ≠ [])
    (hcl : ∀ c ∈ w, c.isWhitespace = false) : splitWs w = [w] := by
  unfold splitWs
  have h1 : splitWsAux (w ++ []) [] = splitWsAux [] (w.reverse ++ []) :=
    splitWsAux_word w hcl [] []
  rw [List.append_nil] at h1
  rw [h1, splitWsAux_nil]
  simp [List.isEmpty_iff, List.reverse_eq_nil_iff, hne]

/-- Splitting `word ++ " " ++ rest` emits the word and continues. -/
theorem splitWs_word_space (w rest : List Char) (hne : w ≠ [])
    (hcl : ∀ c ∈ w, c.isWhitespace = false) :
    splitWs (w ++ ' ' :: rest) = w :: splitWs rest := by
  unfold splitWs
  rw [splitWsAux_word w hcl (' ' :: rest) [],
    splitWsAux_cons_ws (by decide) rest (w.reverse ++ [])]
  simp [List.isEmpty_iff, List.reverse_eq_nil_iff, hne]

/-- Splitting a space-join of nonempty whitespace-free words, with a
nonempty whitespace-free suffix glued to the last one, yields exactly one
word per input word. -/
theorem splitWs_joinWords (ws : List (List Char)) (suffix : List Char)
    (hws : ∀ w ∈ ws, w ≠ [] ∧ ∀ c ∈ w, c.isWhitespace = false)
    (hne : ws ≠ [])
    (hscl : ∀ c ∈ suffix, c.isWhitespace = false) :
    (splitWs (joinWords ws ++ suffix)).length = ws.length := by
  induction ws with
  | nil => exact absurd rfl hne
  | cons w t iht =>
    cases t with
    | nil =>
      show (splitWs (w ++ suffix)).length = 1
      have hwne : w ≠ [] := (hws w (by simp)).1
      have hcl : ∀ c ∈ w ++ suffix, c.isWhitespace = false := by
        intro c hc
        rcases List.mem_append.mp hc with h | h
        · exact (hws w (by simp)).2 c h
        · exact hscl c h
      have hne2 : w ++ suffix ≠ [] := by
        simp [hwne]
      rw [splitWs_single (w ++ suffix) hne2 hcl]
      rfl
    | cons w2 t2 =>
      have hj : joinWords (w :: w2 :: t2) ++ suffix =
          w ++ ' ' :: (joinWords (w2 :: t2) ++ suffix) := by
        show (w ++ ' ' :: joinWords (w2 :: t2)) ++ suffix = _
        rw [List.append_assoc]
        rfl
      rw [hj, splitWs_word_space w (joinWords (w2 :: t2) ++ suffix)
        (hws w (by simp)).1 (hws w (by simp)).2]
      simp only [List.length_cons]
      rw [iht (fun x hx => hws x (List.mem_cons_of_mem w hx)) (by simp)]
      rfl

/-- C8: `_truncate_summary` leaves texts of at most 300 whitespace-
separated words unchanged, rewrites longer texts to the first 300 words
joined by single spaces with `"..."` appended, and consequently every
summary returned by `generate_summary` (primary or fallback path, both of
which end in the truncator) has at most 300 words. -/
theorem C8_word_truncation (s : String) :
    ((pyWords s).length ≤ 300 → _truncate_summary s = s) ∧
      (300 < (pyWords s).length →
        _truncate_summary s =
          String.mk (joinWords ((pyWords s).take 300) ++ ('.' :: '.' :: '.' :: []))) ∧
      (pyWords (_truncate_summary s)).length ≤ 300 ∧
      ∀ (market_data : List MarketData) (trends : List TrendData) (market : String)
        (region : MarketRegion) (timeframe : TimeFrame)
        (openaiResult : Except String String) (ts : String),
        (pyWords (generate_summary market_data trends market region timeframe
          openaiResult ts)).length ≤ 300 := by
  have htrunc : ∀ u : String, (pyWords (_truncate_summary u)).length ≤ 300 := by
    intro u
    unfold _truncate_summary
    by_cases h : (pyWords u).length ≤ 300
    · rw [if_pos h]
      exact h
    · rw [if_neg h]
      push_neg at h
      have hws : ∀ w ∈ (pyWords u).take 300,
          w ≠ [] ∧ ∀ c ∈ w, c.isWhitespace = false := by
        intro w hw
        exact splitWsAux_words_clean u.toList [] (by simp) w (List.mem_of_mem_take hw)
      have hlen : ((pyWords u).take 300).length = 300 := by
        rw [List.length_take]
        omega
      have hne : (pyWords u).take 300 ≠ [] := by
        intro hnil
        rw [hnil] at hlen
        simp at hlen
      show (splitWs (joinWords ((pyWords u).take 300) ++ ('.' :: '.' :: '.' :: []))).length ≤ 300
      rw [splitWs_joinWords _ _ hws hne (by decide), hlen]
  refine ⟨?_, ?_, htrunc s, ?_⟩
  · intro h
    unfold _truncate_summary
    rw [if_pos h]
  · intro h
    unfold _truncate_summary
    rw [if_neg (not_le.mpr h)]
  · intro market_data trends market region timeframe openaiResult ts
    cases openaiResult with
    | ok content => exact htrunc content
    | error e => exact htrunc _

set_option maxRecDepth 100000 in
/-- Witness for C8 at a short and a 301-word string. -/
theorem C8_word_truncation_witness :
    (pyWords "a b").length ≤ 300 ∧ _truncate_summary "a b" = "a b" ∧
      300 < (pyWords (String.mk (joinWords (List.replicate 301 ['a'])))).length ∧
      (pyWords (_truncate_summary
        (String.mk (joinWords (List.replicate 301 ['a']))))).length ≤ 300 := by
  refine ⟨by decide, (C8_word_truncation "a b").1 (by decide), by decide, ?_⟩
  exact (C8_word_truncation (String.mk (joinWords (List.replicate 301 ['a'])))).2.2.1

/-! ## C9: fallback renderer determinism -/

/-- Removing the second-to-last element of `p ++ [a, b]` leaves
`p ++ [b]`. -/
theorem dropPenultimate_append (p : List String) (a b : String) :
    dropPenultimate (p ++ [a, b]) = p ++ [b] := by
  unfold dropPenultimate
  have hlen : (p ++ [a, b]).length = p.length + 2 := by simp
  have ht : (p ++ [a, b]).take p.length = p := List.take_left p [a, b]
  have hd : (p ++ [a, b]).drop (p.length + 1) = [b] := by
    have h3 : p ++ [a, b] = (p ++ [a]) ++ [b] := by simp
    have h4 : p.length + 1 = (p ++ [a]).length := by simp
    rw [h3, h4, List.drop_left]
  rw [hlen]
  have h1 : p.length + 2 - 2 = p.length := by omega
  have h2 : p.length + 2 - 1 = p.length + 1 := by omega
  rw [h1, h2, ht, hd]

/-- C9: the fallback renderer is a deterministic function of its inputs
apart from the embedded wall-clock timestamp: two runs with different
clock readings produce exactly the same lines once the timestamp footer
line is excluded; the rendered summary is the newline-join of those lines
passed through the word truncator. -/
theorem C9_fallback_determinism (market_data : List MarketData) (trends : List TrendData)
    (market : String) (region : MarketRegion) (timeframe : TimeFrame) (ts1 ts2 : String) :
    dropPenultimate (fallbackLines market_data trends market region timeframe ts1) =
      dropPenultimate (fallbackLines market_data trends market region timeframe ts2) ∧
      _generate_fallback_summary market_data trends market region timeframe ts1 =
        _truncate_summary (String.intercalate "\n"
          (fallbackLines market_data trends market region timeframe ts1)) := by
  constructor
  · unfold fallbackLines
    rw [dropPenultimate_append, dropPenultimate_append]
  · rfl

/-! ## C10: the derivation stage never yields zero trends -/

/-- C10: `analyze_trends` never returns an empty list — the
subject-keyword rule emits a trend with confidence at least 3/5 in every
branch, which survives the 0.3 threshold — so the orchestrator's
zero-trends failure is unreachable: a job whose collection yields at
least one data point reaches status `"completed"`. -/
theorem C10_derivation_never_empty (market_data : List MarketData) (market : String)
    (region : MarketRegion) (timeframe : TimeFrame) (st : InMemoryStorage)
    (analysis_id : String) (env : PipelineEnv) (r0 : AnalysisResult) :
    analyze_trends market_data market region timeframe ≠ [] ∧
      3/5 ≤ (_get_market_specific_trend market market_data).confidence ∧
      (env.collected ≠ [] → dictLookup st._results analysis_id = some r0 →
        ∃ r : AnalysisResult,
          dictLookup (perform_analysis st analysis_id market region timeframe env)._results
            analysis_id = some r ∧ r.status = "completed") := by
  have key : ∀ md : List MarketData, analyze_trends md market region timeframe ≠ [] := by
    intro md
    have hmem : _get_market_specific_trend market md ∈ _analyze_sector_trends md market := by
      unfold _analyze_sector_trends
      exact List.mem_append_right _ (by simp)
    have hall : _get_market_specific_trend market md ∈ all_trends md market := by
      unfold all_trends
      exact List.mem_append_right _ hmem
    have hconf := (market_specific_conf market md).2.2
    have hfil : _get_market_specific_trend market md ∈ filtered_trends md market := by
      refine List.mem_filter.mpr ⟨hall, decide_eq_true ?_⟩
      show min_confidence_threshold ≤ _
      unfold min_confidence_threshold
      linarith
    have hpos : 0 < (filtered_trends md market).length :=
      List.length_pos.mpr (List.ne_nil_of_mem hfil)
    have hlen : 0 < (analyze_trends md market region timeframe).length := by
      show 0 < ((sorted_trends md market).take max_trends).length
      rw [List.length_take, Nat.lt_min]
      refine ⟨by norm_num [max_trends], ?_⟩
      unfold sorted_trends
      rw [List.length_insertionSort]
      exact hpos
    exact List.ne_nil_of_length_pos hlen
  refine ⟨key market_data, (market_specific_conf market market_data).2.2, ?_⟩
  intro hc hr
  have h1 := (update_analysis_lookup st analysis_id { status := some "processing" }
    env.now hr).2.1
  unfold perform_analysis
  rw [if_neg (fun h => hc (List.isEmpty_iff.mp h))]
  rw [if_neg (fun h => key env.collected (List.isEmpty_iff.mp h))]
  exact ⟨_, (update_analysis_lookup _ analysis_id
    { status := some "completed", market_data := some env.collected,
      trends := some (analyze_trends env.collected market region timeframe),
      summary := some (generate_summary env.collected
        (analyze_trends env.collected market region timeframe) market region timeframe
        env.openai env.ts),
      processing_time := some (env.t_end - env.t_start) } env.now h1).2.1, rfl⟩

/-- Witness for C10 at a concrete store and a one-element collection. -/
theorem C10_derivation_never_empty_witness :
    analyze_trends [] "retail" .US .MONTHLY ≠ [] ∧
      ([newsData60] : List MarketData) ≠ [] ∧
      dictLookup stSample._results "a" = some recSample ∧
      ∃ r : AnalysisResult,
        dictLookup (perform_analysis stSample "a" "retail" .US .MONTHLY
            { collected := [newsData60], openai := .error "down", t_start := 0, t_end := 2,
              ts := "2024-01-01 00:00:00", now := 1 })._results "a" = some r ∧
          r.status = "completed" := by
  refine ⟨(C10_derivation_never_empty [] "retail" .US .MONTHLY stSample "a"
    { collected := [newsData60], openai := .error "down", t_start := 0, t_end := 2,
      ts := "2024-01-01 00:00:00", now := 1 } recSample).1, by simp, by decide, ?_⟩
  exact (C10_derivation_never_empty [] "retail" .US .MONTHLY stSample "a"
    { collected := [newsData60], openai := .error "down", t_start := 0, t_end := 2,
      ts := "2024-01-01 00:00:00", now := 1 } recSample).2.2 (by simp) (by decide)
